import Mathlib

/-!
Verification of the WrestleAI browser client's anchor-based target-lock and
session-continuity core, as a shallow embedding of the React source
(`AnchorSelectStep`, `TrimStep`, and the root `App` controller holding the
session store, retry manager and persistence initializers).

Conventions of the embedding:
* JavaScript numbers that the modelled code only stores, compares and adds
  are represented as `Rat` (timestamps, box geometry, trim bounds) or `Nat`
  (counters); no modelled computation depends on floating-point rounding,
  except `Math.ceil(n * 0.65)` whose exactness is argued at `requiredCount`.
* `null`/`undefined`-able fields become `Option`; JavaScript objects that
  cross the JSON boundary are modelled by the `JsValue` type further below.
* React `useState` state is passed explicitly: each event handler becomes a
  pure function from the component state (plus its inputs) to the new state.
-/

namespace WrestleAI

/-- Bounding-box geometry in source-frame pixel coordinates, as stored into an
anchor by `handleSelectBox` (`\x7bx: box.x, y: box.y, w: box.w, h: box.h\x7d`). -/
structure Box where
  x : Rat
  y : Rat
  w : Rat
  h : Rat
deriving DecidableEq

/-- A candidate person detection returned by the boxes endpoint: an id, an
optional confidence score, and box geometry.  Only the geometry is copied
into an anchor on selection. -/
structure Detection where
  id : Int
  score : Option Rat
  x : Rat
  y : Rat
  w : Rat
  h : Rat
deriving DecidableEq

/-- One element of the component's `anchors` array: `\x7bt, box, skipped\x7d`.
`t` is `Option` because the record JavaScript creates when an element
assignment lands outside the array (`\x7b...undefined, box, skipped\x7d`, reachable
only on an empty board) carries no `t` field; every record created by
initialization has `t = some _`. -/
structure Anchor where
  t : Option Rat
  box : Option Box
  skipped : Bool
deriving DecidableEq

/-- The `AnchorSelectStep` component state used by the modelled handlers:
`anchorTimestamps`, `anchors`, `currentAnchorIndex`, `loadingAnchors`. -/
structure AnchorBoardState where
  anchorTimestamps : List Rat
  anchors : List Anchor
  currentAnchorIndex : Nat
  loadingAnchors : Bool
deriving DecidableEq

/-- The `useState` initial values of the component: empty lists, index 0,
`loadingAnchors = true`. -/
def initialAnchorBoard : AnchorBoardState :=
  { anchorTimestamps := [], anchors := [], currentAnchorIndex := 0, loadingAnchors := true }

/-- Outcome of the `fetch` in `fetchAnchors`: a 2xx response whose JSON body
may or may not carry an `anchors` field (`data.anchors || []`), a non-2xx
response (the `if (response.ok)` guard fails, nothing happens), or a thrown
network/parse error (caught; only `console.error` runs). -/
inductive AnchorsFetchOutcome where
  | ok : Option (List Rat) → AnchorsFetchOutcome
  | httpError : AnchorsFetchOutcome
  | networkError : AnchorsFetchOutcome
deriving DecidableEq

/-- `fetchAnchors` of `AnchorSelectStep`: on success it installs the
timestamp list and one unanswered `\x7bt, box: null, skipped: false\x7d` record per
timestamp; on any failure it changes nothing except ending the loading
state (the `finally` clause).  The component has no error field for this
fetch; the `catch` only logs. -/
def fetchAnchorsModel (s : AnchorBoardState) (res : AnchorsFetchOutcome) : AnchorBoardState :=
  match res with
  | .ok anchorsField =>
      let timestamps := anchorsField.getD []
      { s with
        anchorTimestamps := timestamps
        anchors := timestamps.map (fun t => { t := some t, box := none, skipped := false })
        loadingAnchors := false }
  | .httpError => { s with loadingAnchors := false }
  | .networkError => { s with loadingAnchors := false }

/-- What the component renders: the loading screen while `loadingAnchors`,
otherwise the anchor board.  The render has no error branch for a failed
anchors fetch. -/
inductive AnchorScreenView where
  | loadingView : AnchorScreenView
  | boardView : AnchorScreenView
deriving DecidableEq

/-- The top-level `if (loadingAnchors) return <loading/>` of the component. -/
def renderAnchorScreen (s : AnchorBoardState) : AnchorScreenView :=
  if s.loadingAnchors then .loadingView else .boardView

/-- JavaScript array element assignment `l[i] = a` as used on a copy of the
`anchors` array.  For `i < l.length` this is an in-place update; for
`i = l.length` JavaScript appends (the only out-of-range index the component
can produce is `currentAnchorIndex = 0` on an empty board); indices beyond
`l.length`, where JavaScript would insert holes, never occur and are
modelled as an append as well. -/
def jsArraySet (l : List α) (i : Nat) (a : α) : List α :=
  if i < l.length then l.set i a else l ++ [a]

/-- `goToAnchor(index)`: move `currentAnchorIndex` when
`index >= 0 && index < anchorTimestamps.length`, otherwise do nothing.
The frame/box fetch it triggers is a side effect outside this state. -/
def goToAnchor (s : AnchorBoardState) (index : Int) : AnchorBoardState :=
  if 0 ≤ index ∧ index < (s.anchorTimestamps.length : Int) then
    { s with currentAnchorIndex := index.toNat }
  else s

/-- `handleSelectBox(box)`: replace the record at `currentAnchorIndex` by
`\x7b...old, box: \x7bx, y, w, h\x7d, skipped: false\x7d` (the spread keeps `t`; spreading
`undefined` keeps nothing). -/
def handleSelectBox (s : AnchorBoardState) (det : Detection) : AnchorBoardState :=
  let old := s.anchors[s.currentAnchorIndex]?
  let updated : Anchor :=
    { t := Option.bind old (fun a => a.t)
      box := some { x := det.x, y := det.y, w := det.w, h := det.h }
      skipped := false }
  { s with anchors := jsArraySet s.anchors s.currentAnchorIndex updated }

/-- `handleSkip()`: replace the record at `currentAnchorIndex` by
`\x7b...old, box: null, skipped: true\x7d`, then auto-advance via
`goToAnchor(currentAnchorIndex + 1)` when
`currentAnchorIndex < anchorTimestamps.length - 1`. -/
def handleSkip (s : AnchorBoardState) : AnchorBoardState :=
  let old := s.anchors[s.currentAnchorIndex]?
  let updated : Anchor :=
    { t := Option.bind old (fun a => a.t), box := none, skipped := true }
  let s1 := { s with anchors := jsArraySet s.anchors s.currentAnchorIndex updated }
  if s1.currentAnchorIndex < s1.anchorTimestamps.length - 1 then
    goToAnchor s1 ((s1.currentAnchorIndex : Int) + 1)
  else s1

/-- `hasAnySelection`: `anchors.some(a => a.box !== null)`. -/
def hasAnySelection (anchors : List Anchor) : Bool :=
  anchors.any (fun a => a.box ≠ none)

/-- `answeredCount`: `anchors.filter(a => a.box !== null || a.skipped).length`. -/
def answeredCount (anchors : List Anchor) : Nat :=
  (anchors.filter (fun a => a.box.isSome || a.skipped)).length

/-- `REQUIRED_PERCENT = 65`. -/
def REQUIRED_PERCENT : Nat := 65

/-- `requiredCount = Math.ceil(anchorTimestamps.length * (REQUIRED_PERCENT / 100))`,
written over `Nat` as the exact ceiling of `65 * n / 100`.  This equals the
JavaScript double computation for every anchor-list length that can occur:
the relative error of `n * 0.65` in binary64 is below half an ulp of the
exact value `13n/20`, so `Math.ceil` of it agrees with the exact ceiling. -/
def requiredCount (n : Nat) : Nat := (n * REQUIRED_PERCENT + 99) / 100

/-- `hasEnoughAnswers = answeredCount >= requiredCount`. -/
def hasEnoughAnswers (s : AnchorBoardState) : Bool :=
  decide (requiredCount s.anchorTimestamps.length ≤ answeredCount s.anchors)

/-- `canAnalyze = hasAnySelection && hasEnoughAnswers`: the submission gate
of the anchor board. -/
def canAnalyze (s : AnchorBoardState) : Bool :=
  hasAnySelection s.anchors && hasEnoughAnswers s

/-- Board states reachable in the component: the state right after the
mount-time anchors fetch settles, closed under selection, skip and
navigation. -/
inductive BoardReach : AnchorBoardState → Prop where
  | init (res : AnchorsFetchOutcome) : BoardReach (fetchAnchorsModel initialAnchorBoard res)
  | select {s : AnchorBoardState} (det : Detection) :
      BoardReach s → BoardReach (handleSelectBox s det)
  | skip {s : AnchorBoardState} : BoardReach s → BoardReach (handleSkip s)
  | goto {s : AnchorBoardState} (index : Int) :
      BoardReach s → BoardReach (goToAnchor s index)

/-! ### Session store and match-context accumulation (root `App` controller) -/

/-- A coaching pointer as read by the session fold; fields the fold never
reads are omitted.  `title` is `Option` because the code guards it with
`p.title?.toLowerCase()`. -/
structure Pointer where
  title : Option String
deriving DecidableEq

/-- A wrestling-technique event as read by the session fold; only its
(optional) `type` string is consulted. -/
structure WrestlingEvent where
  type : Option String
deriving DecidableEq

/-- One completed clip's findings, restricted to the fields
`updateMatchContext` reads (`analysisResult.events || []`,
`analysisResult.pointers || []`); the remaining result fields are opaque to
the fold. -/
structure AnalysisResult where
  pointers : Option (List Pointer)
  events : Option (List WrestlingEvent)
deriving DecidableEq

/-- The accumulating `matchContext` record of the session. `recurringIssues`
is the JavaScript object used as a string-keyed counter map, modelled as its
lookup function with absent keys reading 0 (`obj[key] || 0`). -/
structure MatchContext where
  totalShotAttempts : Nat
  totalLevelChanges : Nat
  totalSprawls : Nat
  recurringIssues : String → Nat
  clipsSummary : String
  lastClipIndex : Nat

/-- The persisted session aggregate: ordered analyses plus match context. -/
structure Session where
  analyses : List AnalysisResult
  currentMode : String
  matchContext : MatchContext

/-- The zero match context of the default session object returned by
`getInitialSession` (and re-installed by `handleClearChat`). -/
def initialMatchContext : MatchContext :=
  { totalShotAttempts := 0
    totalLevelChanges := 0
    totalSprawls := 0
    recurringIssues := fun _ => 0
    clipsSummary := ""
    lastClipIndex := 0 }

/-- The default empty session. -/
def initialSession : Session :=
  { analyses := [], currentMode := "new", matchContext := initialMatchContext }

/-- JavaScript `String.prototype.toLowerCase` on the ASCII strings the app
compares (event types, pointer titles): lower-case each character. -/
def jsToLower (s : String) : String := String.mk (s.toList.map Char.toLower)

/-- JavaScript `String.prototype.includes`: `pat` occurs as a contiguous
substring of `s`. -/
def strIncludes (s pat : String) : Bool :=
  s.toList.tails.any (fun t => pat.toList.isPrefixOf t)

/-- `e.type?.toLowerCase().includes(pat)` with `undefined` propagating to a
falsy result. -/
def typeMatches (ty : Option String) (pat : String) : Bool :=
  match ty with
  | some t => strIncludes (jsToLower t) pat
  | none => false

/-- The shot/takedown event filter of `updateMatchContext`. -/
def isShotEvent (e : WrestlingEvent) : Bool :=
  typeMatches e.type "shot" || typeMatches e.type "takedown"

/-- The level-change event filter of `updateMatchContext`. -/
def isLevelEvent (e : WrestlingEvent) : Bool := typeMatches e.type "level"

/-- The sprawl event filter of `updateMatchContext`. -/
def isSprawlEvent (e : WrestlingEvent) : Bool := typeMatches e.type "sprawl"

/-- `const key = p.title?.toLowerCase() || ''`. -/
def issueKey (p : Pointer) : String :=
  match p.title with
  | some t => jsToLower t
  | none => ""

/-- One step of the `pointers.forEach` loop:
`if (key) recurringIssues[key] = (recurringIssues[key] || 0) + 1`. -/
def bumpIssues (m : String → Nat) (p : Pointer) : String → Nat :=
  if issueKey p = "" then m
  else fun k => if k = issueKey p then m k + 1 else m k

/-- The rolling summary string
`Analyzed N clip(s) in this session.` rebuilt on every fold. -/
def clipsSummaryText (clipCount : Nat) : String :=
  "Analyzed " ++ toString clipCount ++ " clip" ++
    (if 1 < clipCount then "s" else "") ++ " in this session."

/-- `updateMatchContext(analysisResult, _)` of the root controller: fold one
result's events and pointers into the running match context, bump the clip
index, and regenerate the summary string.  The `isContinuation` argument of
the source function is unused by its body and omitted. -/
def updateMatchContext (prev : Session) (analysisResult : AnalysisResult) : Session :=
  let events := analysisResult.events.getD []
  let shotAttempts := (events.filter isShotEvent).length
  let levelChanges := (events.filter isLevelEvent).length
  let sprawls := (events.filter isSprawlEvent).length
  let pointers := analysisResult.pointers.getD []
  let clipCount := prev.matchContext.lastClipIndex + 1
  { prev with
    matchContext :=
      { totalShotAttempts := prev.matchContext.totalShotAttempts + shotAttempts
        totalLevelChanges := prev.matchContext.totalLevelChanges + levelChanges
        totalSprawls := prev.matchContext.totalSprawls + sprawls
        recurringIssues := pointers.foldl bumpIssues prev.matchContext.recurringIssues
        clipsSummary := clipsSummaryText clipCount
        lastClipIndex := clipCount } }

/-- The append performed on analysis success
(`setSession(prev => (\x7b...prev, analyses: [...prev.analyses, analysisResult]\x7d))`)
followed by `updateMatchContext(analysisResult, ...)`. -/
def appendResult (s : Session) (analysisResult : AnalysisResult) : Session :=
  updateMatchContext { s with analyses := s.analyses ++ [analysisResult] } analysisResult

/-! ### Trim step -/

/-- `MIN_CLIP_LENGTH = 3` seconds. -/
def MIN_CLIP_LENGTH : Rat := 3

/-- `isValidTrim = effectiveDuration >= MIN_CLIP_LENGTH && trimStart < trimEnd`
where `effectiveDuration = trimEnd - trimStart`. -/
def isValidTrim (trimStart trimEnd : Rat) : Bool :=
  decide (MIN_CLIP_LENGTH ≤ trimEnd - trimStart) && decide (trimStart < trimEnd)

/-- The JSON body `\x7btrim_start, trim_end\x7d` posted to the set-trim endpoint. -/
structure TrimRequest where
  trim_start : Rat
  trim_end : Rat
deriving DecidableEq

/-- `handleContinue` of `TrimStep`: an invalid trim is rejected with a local
error message and no request is produced; a valid trim yields the request
body sent to the backend. -/
def handleContinue (trimStart trimEnd : Rat) : Except String TrimRequest :=
  if isValidTrim trimStart trimEnd then
    .ok { trim_start := trimStart, trim_end := trimEnd }
  else
    .error "Trimmed clip must be at least 3 seconds"

/-! ### JSON values and a model of the `JSON.parse` builtin

The persistence initializers and the analysis request body traffic in plain
JavaScript values crossing the JSON boundary; `JsValue` is that value
domain.  `jsonParse` models `JSON.parse`: the full JSON grammar
(literals, numbers with fraction and exponent, strings with escapes,
arrays, objects), with numbers read exactly into `Rat` instead of binary64
and `\uXXXX` escapes for surrogate code points mapped to the default
character. -/

/-- A JavaScript value produced by `JSON.parse` / fed to `JSON.stringify`. -/
inductive JsValue where
  | null : JsValue
  | bool : Bool → JsValue
  | num : Rat → JsValue
  | str : String → JsValue
  | arr : List JsValue → JsValue
  | obj : List (String × JsValue) → JsValue

/-- Value of a hexadecimal digit, if `c` is one. -/
def hexVal (c : Char) : Option Nat :=
  if c.toNat ≥ 48 ∧ c.toNat ≤ 57 then some (c.toNat - 48)
  else if c.toNat ≥ 97 ∧ c.toNat ≤ 102 then some (c.toNat - 87)
  else if c.toNat ≥ 65 ∧ c.toNat ≤ 70 then some (c.toNat - 55)
  else none

/-- JSON insignificant whitespace: space, tab, line feed, carriage return. -/
def isJsonWs (c : Char) : Bool :=
  c.toNat = 32 || c.toNat = 9 || c.toNat = 10 || c.toNat = 13

/-- Drop leading JSON whitespace. -/
def skipJsonWs (cs : List Char) : List Char := cs.dropWhile isJsonWs

/-- Parse a JSON string body after its opening quote: characters up to the
closing quote (code 34), with backslash (code 92) escapes; unescaped control
characters are rejected as in JSON. -/
def parseStringBody : List Char → Option (List Char × List Char)
  | [] => none
  | c :: cs =>
    if c.toNat = 34 then some ([], cs)
    else if c.toNat = 92 then
      match cs with
      | [] => none
      | e :: cs2 =>
        if e.toNat = 34 ∨ e.toNat = 92 ∨ e.toNat = 47 then
          (parseStringBody cs2).map (fun p => (e :: p.1, p.2))
        else if e = 'b' then
          (parseStringBody cs2).map (fun p => (Char.ofNat 8 :: p.1, p.2))
        else if e = 'f' then
          (parseStringBody cs2).map (fun p => (Char.ofNat 12 :: p.1, p.2))
        else if e = 'n' then
          (parseStringBody cs2).map (fun p => (Char.ofNat 10 :: p.1, p.2))
        else if e = 'r' then
          (parseStringBody cs2).map (fun p => (Char.ofNat 13 :: p.1, p.2))
        else if e = 't' then
          (parseStringBody cs2).map (fun p => (Char.ofNat 9 :: p.1, p.2))
        else if e = 'u' then
          match cs2 with
          | d1 :: d2 :: d3 :: d4 :: cs3 =>
            match hexVal d1, hexVal d2, hexVal d3, hexVal d4 with
            | some a, some b, some c2, some d =>
              (parseStringBody cs3).map
                (fun p => (Char.ofNat (((a * 16 + b) * 16 + c2) * 16 + d) :: p.1, p.2))
            | _, _, _, _ => none
          | _ => none
        else none
    else if c.toNat < 32 then none
    else (parseStringBody cs).map (fun p => (c :: p.1, p.2))

/-- Decimal digits to their value. -/
def digitsToNat (ds : List Char) : Nat :=
  ds.foldl (fun n c => n * 10 + (c.toNat - 48)) 0

/-- Optional `.digits` fraction part of a JSON number; yields its value. -/
def parseFracPart : List Char → Option (Rat × List Char)
  | [] => some (0, [])
  | c :: rest =>
    if c = '.' then
      let fd := rest.takeWhile Char.isDigit
      if fd.isEmpty then none
      else some ((digitsToNat fd : Rat) / (10 : Rat) ^ fd.length, rest.dropWhile Char.isDigit)
    else some (0, c :: rest)

/-- Optional `e`/`E` exponent part of a JSON number; yields the multiplier. -/
def parseExpPart : List Char → Option (Rat × List Char)
  | [] => some (1, [])
  | c :: rest =>
    if c = 'e' ∨ c = 'E' then
      let signStrip : Bool × List Char :=
        match rest with
        | d :: r2 => if d = '-' then (true, r2) else if d = '+' then (false, r2) else (false, d :: r2)
        | [] => (false, [])
      let ed := signStrip.2.takeWhile Char.isDigit
      if ed.isEmpty then none
      else
        some (if signStrip.1 then (1 : Rat) / (10 : Rat) ^ digitsToNat ed
              else (10 : Rat) ^ digitsToNat ed,
              signStrip.2.dropWhile Char.isDigit)
    else some (1, c :: rest)

/-- A JSON number: optional minus, integer part without leading zeros,
optional fraction, optional exponent; read exactly into `Rat`. -/
def parseNumber (cs : List Char) : Option (Rat × List Char) :=
  let signStrip : Bool × List Char :=
    match cs with
    | c :: rest => if c = '-' then (true, rest) else (false, c :: rest)
    | [] => (false, [])
  let intDigits := signStrip.2.takeWhile Char.isDigit
  if intDigits.isEmpty then none
  else if 1 < intDigits.length ∧ intDigits.head? = some '0' then none
  else
    match parseFracPart (signStrip.2.dropWhile Char.isDigit) with
    | none => none
    | some (frac, cs2) =>
      match parseExpPart cs2 with
      | none => none
      | some (mult, cs3) =>
        let m : Rat := (digitsToNat intDigits : Rat) + frac
        some ((if signStrip.1 then -m else m) * mult, cs3)

/-- A fixed keyword (`null`, `true`, `false`) at the head of the input. -/
def parseKeyword (cs word : List Char) (v : JsValue) : Option (JsValue × List Char) :=
  if word.isPrefixOf cs then some (v, cs.drop word.length) else none

mutual

/-- A JSON value, fuelled: literal, number, string, array or object. -/
def parseValue : Nat → List Char → Option (JsValue × List Char)
  | 0, _ => none
  | fuel + 1, cs =>
    match skipJsonWs cs with
    | [] => none
    | c :: rest =>
      if c = 'n' then parseKeyword (c :: rest) ['n', 'u', 'l', 'l'] JsValue.null
      else if c = 't' then parseKeyword (c :: rest) ['t', 'r', 'u', 'e'] (JsValue.bool true)
      else if c = 'f' then parseKeyword (c :: rest) ['f', 'a', 'l', 's', 'e'] (JsValue.bool false)
      else if c.toNat = 34 then
        (parseStringBody rest).map (fun p => (JsValue.str (String.mk p.1), p.2))
      else if c = '-' ∨ c.isDigit then
        (parseNumber (c :: rest)).map (fun p => (JsValue.num p.1, p.2))
      else if c = '[' then
        match skipJsonWs rest with
        | d :: rest2 =>
          if d = ']' then some (JsValue.arr [], rest2)
          else (parseElements fuel (d :: rest2)).map (fun p => (JsValue.arr p.1, p.2))
        | [] => none
      else if c.toNat = 123 then
        match skipJsonWs rest with
        | d :: rest2 =>
          if d.toNat = 125 then some (JsValue.obj [], rest2)
          else (parseMembers fuel (d :: rest2)).map (fun p => (JsValue.obj p.1, p.2))
        | [] => none
      else none

/-- Comma-separated array elements up to the closing bracket. -/
def parseElements : Nat → List Char → Option (List JsValue × List Char)
  | 0, _ => none
  | fuel + 1, cs =>
    match parseValue fuel cs with
    | none => none
    | some (v, rest) =>
      match skipJsonWs rest with
      | c :: rest2 =>
        if c = ',' then (parseElements fuel rest2).map (fun p => (v :: p.1, p.2))
        else if c = ']' then some ([v], rest2)
        else none
      | [] => none

/-- Comma-separated `"key": value` members up to the closing brace
(code 125). -/
def parseMembers : Nat → List Char → Option (List (String × JsValue) × List Char)
  | 0, _ => none
  | fuel + 1, cs =>
    match skipJsonWs cs with
    | c :: rest =>
      if c.toNat = 34 then
        match parseStringBody rest with
        | none => none
        | some (key, rest1) =>
          match skipJsonWs rest1 with
          | d :: rest2 =>
            if d = ':' then
              match parseValue fuel rest2 with
              | none => none
              | some (v, rest3) =>
                match skipJsonWs rest3 with
                | e :: rest4 =>
                  if e = ',' then
                    (parseMembers fuel rest4).map (fun p => ((String.mk key, v) :: p.1, p.2))
                  else if e.toNat = 125 then some ([(String.mk key, v)], rest4)
                  else none
                | [] => none
            else none
          | [] => none
      else none
    | [] => none

end

/-- `JSON.parse`: parse one value, allow trailing whitespace only; `none`
models a thrown `SyntaxError`.  The fuel bound exceeds the number of parser
steps any input of this length can take. -/
def jsonParse (s : String) : Option JsValue :=
  match parseValue (2 * s.length + 8) s.toList with
  | some (v, rest) => if (skipJsonWs rest).isEmpty then some v else none
  | none => none

/-! ### Persistence initializers of the root controller -/

/-- JavaScript property read `v[field]` as used on deserialized values.
`Except.error` models a thrown `TypeError` (property read on `null`);
`Except.ok none` models `undefined` (absent property, or property of a
primitive).  Arrays and strings expose `length`; JavaScript coercion of
exotic `length` values is not needed by the modelled reads. -/
def jsGetProp (v : JsValue) (field : String) : Except String (Option JsValue) :=
  match v with
  | .null => .error "TypeError"
  | .obj kvs => .ok (kvs.lookup field)
  | .arr l => if field = "length" then .ok (some (.num l.length)) else .ok none
  | .str s => if field = "length" then .ok (some (.num s.length)) else .ok none
  | _ => .ok none

/-- The default session object literal returned by `getInitialSession` when
nothing usable is stored. -/
def defaultSessionJs : JsValue :=
  .obj [("analyses", .arr []),
        ("currentMode", .str "new"),
        ("matchContext",
          .obj [("totalShotAttempts", .num 0),
                ("totalLevelChanges", .num 0),
                ("totalSprawls", .num 0),
                ("recurringIssues", .obj []),
                ("clipsSummary", .str ""),
                ("lastClipIndex", .num 0)])]

/-- `getInitialSession()`: read the stored string (`none` = key absent, and
the empty string is falsy); return `JSON.parse` of it when parsing
succeeds — whatever value that is — and the default session otherwise
(the `catch` removes the corrupt entry and falls through). -/
def getInitialSession (stored : Option String) : JsValue :=
  match stored with
  | none => defaultSessionJs
  | some cached =>
    if cached = "" then defaultSessionJs
    else
      match jsonParse cached with
      | some v => v
      | none => defaultSessionJs

/-- The `appState` initializer: `getInitialSession().analyses.length > 0`.
Reading `.analyses` of a non-object, or `.length` of `undefined`/`null`,
throws and crashes startup (`Except.error`). -/
def appStateInit (stored : Option String) : Except String Bool :=
  match jsGetProp (getInitialSession stored) "analyses" with
  | .error e => .error e
  | .ok none => .error "TypeError"
  | .ok (some analysesVal) =>
    match jsGetProp analysesVal "length" with
    | .error e => .error e
    | .ok (some (JsValue.num n)) => .ok (decide (0 < n))
    | .ok _ => .ok false

/-- The `uploadData` initializer: stored string parsed if present, `null`
otherwise; a parse failure removes the entry and yields `null`. -/
def uploadDataInit (stored : Option String) : Option JsValue :=
  match stored with
  | none => none
  | some cached => if cached = "" then none else jsonParse cached

/-- The `lastTarget` initializer: textually the same defensive
parse-or-null block as `uploadDataInit`, on its own storage key. -/
def lastTargetInit (stored : Option String) : Option JsValue :=
  match stored with
  | none => none
  | some cached => if cached = "" then none else jsonParse cached

/-! ### Analysis request builder and retry manager (root `App` controller) -/

/-- Box geometry as the JSON object stored in an anchor record. -/
def boxToJs (b : Box) : JsValue :=
  .obj [("x", .num b.x), ("y", .num b.y), ("w", .num b.w), ("h", .num b.h)]

/-- One anchor record as it serializes into the request body: `t` (absent
when the record carries none, as `JSON.stringify` drops `undefined`
fields), `box` (`null` when unset), `skipped`. -/
def anchorToJs (a : Anchor) : JsValue :=
  .obj ((match a.t with
         | some t => [("t", JsValue.num t)]
         | none => []) ++
        [("box", match a.box with
                 | some b => boxToJs b
                 | none => JsValue.null),
         ("skipped", JsValue.bool a.skipped)])

/-- The JSON body `handleAnalyzeWithAnchors` posts to the
`analyze-with-anchors` endpoint: exactly
`\x7banchors: anchors, continuation: false\x7d`.  The function reads neither the
skill level, nor the pending continuation mode, nor the session, so the
body is a function of the anchors alone. -/
def anchorAnalyzeRequest (anchors : List Anchor) : JsValue :=
  .obj [("anchors", .arr (anchors.map anchorToJs)),
        ("continuation", .bool false)]

/-- Member lookup on a JSON object value (`none` both for a non-object and
for an absent key). -/
def objGet (v : JsValue) (key : String) : Option JsValue :=
  match v with
  | .obj kvs => kvs.lookup key
  | _ => none

/-- Upload metadata of the current job, restricted to the fields the
modelled handlers consult. -/
structure UploadData where
  job_id : String
  duration_seconds : Rat
deriving DecidableEq

/-- The stored `lastTarget` contract: either the anchors array of an
anchor-based submission (`setLastTarget(\x7banchors\x7d)`) or the legacy
`\x7btargetBox, tStart\x7d` pair.  `handleRetry` discriminates on the truthiness
of `lastTarget.anchors` (a stored array, even empty, is truthy). -/
inductive LastTarget where
  | anchors : List Anchor → LastTarget
  | legacy : Option Box → Rat → LastTarget
deriving DecidableEq

/-- What a retry invocation does. -/
inductive RetryAction where
  | resubmitAnchors : List Anchor → RetryAction
  | resubmitLegacy : Option Box → Rat → RetryAction
  | backToAnchorSelect : RetryAction
deriving DecidableEq

/-- `handleRetry`: with both a stored contract and upload metadata present,
resubmit the stored contract (anchor-based or legacy) unchanged; otherwise
return to the anchor-selection screen and clear the error. -/
def handleRetryAction (lastTarget : Option LastTarget) (uploadData : Option UploadData) :
    RetryAction :=
  match lastTarget, uploadData with
  | some (.anchors as), some _ => .resubmitAnchors as
  | some (.legacy b t), some _ => .resubmitLegacy b t
  | _, _ => .backToAnchorSelect

/-! ### The application screens and reachable controller states

Enough of the root controller's state machine to know which states a retry
invocation can be made from: the retry button only renders on the analyzing
screen, and the analyzing screen is only entered through the submission
handlers, which store a contract and require upload metadata first. -/

/-- The `STATES` enumeration of the root controller. -/
inductive AppScreen where
  | upload : AppScreen
  | targetSelect : AppScreen
  | anchorSelect : AppScreen
  | analyzing : AppScreen
  | results : AppScreen
deriving DecidableEq

/-- Root-controller state restricted to the fields the retry logic reads. -/
structure AppModel where
  appState : AppScreen
  uploadData : Option UploadData
  lastTarget : Option LastTarget
  session : Session

/-- `applyRetry`: the state change `handleRetry` performs.  A resubmission
re-enters the analyzing screen with the same stored contract (the handlers
re-store the identical value); otherwise the controller moves to the
anchor-selection screen. -/
def applyRetry (m : AppModel) : AppModel :=
  match handleRetryAction m.lastTarget m.uploadData with
  | .resubmitAnchors as => { m with appState := .analyzing, lastTarget := some (.anchors as) }
  | .resubmitLegacy b t => { m with appState := .analyzing, lastTarget := some (.legacy b t) }
  | .backToAnchorSelect => { m with appState := .anchorSelect }

/-- Controller states reachable through the modelled handlers.

* `init`: page load restores the three persisted values (any values — an
  over-approximation of what deserialization can yield); the initial screen
  is results when restored analyses exist, upload otherwise, never
  analyzing.
* `uploadSuccess`: `handleUpload` stores the job metadata and moves to
  anchor selection.
* `submitAnchors`: `handleAnalyzeWithAnchors` (invoked from the
  anchor-selection screen) returns early without upload metadata;
  otherwise it stores the anchors contract and enters the analyzing screen.
  A settled anchor analysis leaves the modelled fields unchanged (its
  success path throws a caught `ReferenceError` before any state change),
  so it needs no constructor.
* `retryStep`: `handleRetry`, invocable on the analyzing screen.
* `legacySuccess`: a successful legacy analysis appends its result and
  shows the results screen; a failed one changes none of the modelled
  fields.
* `logoClick`: `handleLogoClick` / `handleUploadAnother` /
  `handleUploadContinuation` all clear the job and contract and return to
  upload, keeping the session.
* `clearChat`: additionally resets the session to the initial one.
* `backToResults`: `handleBackToResults`, guarded by existing analyses. -/
inductive ReachableApp : AppModel → Prop where
  | init (s : Session) (u : Option UploadData) (lt : Option LastTarget) :
      ReachableApp
        { appState := if s.analyses.isEmpty then .upload else .results
          uploadData := u, lastTarget := lt, session := s }
  | uploadSuccess {m : AppModel} (u : UploadData) :
      ReachableApp m → m.appState = .upload →
      ReachableApp { m with appState := .anchorSelect, uploadData := some u }
  | submitAnchors {m : AppModel} (as : List Anchor) (u : UploadData) :
      ReachableApp m → m.appState = .anchorSelect → m.uploadData = some u →
      ReachableApp { m with appState := .analyzing, lastTarget := some (.anchors as) }
  | retryStep {m : AppModel} :
      ReachableApp m → m.appState = .analyzing → ReachableApp (applyRetry m)
  | legacySuccess {m : AppModel} (r : AnalysisResult) :
      ReachableApp m → m.appState = .analyzing →
      ReachableApp { m with appState := .results, session := appendResult m.session r }
  | logoClick {m : AppModel} :
      ReachableApp m →
      ReachableApp { m with appState := .upload, uploadData := none, lastTarget := none }
  | clearChat {m : AppModel} :
      ReachableApp m →
      ReachableApp
        { appState := .upload, uploadData := none, lastTarget := none
          session := initialSession }
  | backToResults {m : AppModel} :
      ReachableApp m → m.session.analyses ≠ [] →
      ReachableApp { m with appState := .results }

/-- On the analyzing screen both the upload metadata and a stored contract
are present: the screen is only entered by `submitAnchors` (which requires
and preserves them) or by a resubmitting `applyRetry` (likewise). -/
theorem analyzing_has_contract (m : AppModel) (hr : ReachableApp m) :
    m.appState = .analyzing → m.uploadData.isSome ∧ m.lastTarget.isSome := by
  induction hr with
  | init s u lt =>
      intro hs
      by_cases h : s.analyses.isEmpty <;> simp [h] at hs
  | uploadSuccess u hm hup ih =>
      intro hs; simp at hs
  | @submitAnchors m1 as u hm hsc hu ih =>
      intro hs; simp [hu]
  | @retryStep m1 hm hthere ih =>
      intro hs
      rcases Option.isSome_iff_exists.mp (ih hthere).1 with ⟨u, hu⟩
      rcases Option.isSome_iff_exists.mp (ih hthere).2 with ⟨lt, hlt⟩
      cases lt <;> simp [applyRetry, handleRetryAction, hu, hlt]
  | legacySuccess r hm hthere ih =>
      intro hs; simp at hs
  | logoClick hm ih =>
      intro hs; simp at hs
  | clearChat hm ih =>
      intro hs; simp at hs
  | backToResults hm hne ih =>
      intro hs; simp at hs

/-! ### Helper lemmas -/

theorem mem_jsArraySet {l : List α} {i : Nat} {x a : α} (ha : a ∈ jsArraySet l i x) :
    a ∈ l ∨ a = x := by
  unfold jsArraySet at ha
  split at ha
  · exact List.mem_or_eq_of_mem_set ha
  · rcases List.mem_append.mp ha with h | h
    · exact Or.inl h
    · exact Or.inr (List.mem_singleton.mp h)

theorem getElem?_jsArraySet_ne {l : List α} {i j : Nat} {x : α} (hij : j ≠ i)
    (hi : i ≤ l.length) : (jsArraySet l i x)[j]? = l[j]? := by
  unfold jsArraySet
  split
  · exact List.getElem?_set_ne (fun h => hij h.symm)
  · rename_i hnot
    have hi2 : i = l.length := by omega
    rw [List.getElem?_append]
    by_cases hj : j < l.length
    · rw [if_pos hj]
    · rw [if_neg hj]
      rw [List.getElem?_eq_none (show l.length ≤ j by omega)]
      exact List.getElem?_eq_none (show [x].length ≤ j - l.length by simp; omega)

theorem getElem?_jsArraySet_self {l : List α} {i : Nat} {x : α} (hi : i < l.length) :
    (jsArraySet l i x)[i]? = some x := by
  unfold jsArraySet
  rw [if_pos hi]
  exact List.getElem?_set_eq_of_lt x hi

theorem length_jsArraySet {l : List α} {i : Nat} {x : α} (hi : i < l.length) :
    (jsArraySet l i x).length = l.length := by
  unfold jsArraySet
  rw [if_pos hi, List.length_set]

theorem map_jsArraySet {l : List α} {i : Nat} {x a : α} (f : α → β)
    (ha : l[i]? = some a) (hf : f x = f a) : (jsArraySet l i x).map f = l.map f := by
  have hi : i < l.length := by
    by_contra hc
    rw [List.getElem?_eq_none (by omega)] at ha
    exact Option.noConfusion ha
  apply List.ext_getElem?
  intro n
  rw [List.getElem?_map, List.getElem?_map]
  by_cases hn : n = i
  · subst hn
    rw [getElem?_jsArraySet_self hi, ha]
    simp [hf]
  · rw [getElem?_jsArraySet_ne hn (by omega)]

theorem goToAnchor_anchors (s : AnchorBoardState) (index : Int) :
    (goToAnchor s index).anchors = s.anchors := by
  unfold goToAnchor
  split <;> rfl

theorem goToAnchor_anchorTimestamps (s : AnchorBoardState) (index : Int) :
    (goToAnchor s index).anchorTimestamps = s.anchorTimestamps := by
  unfold goToAnchor
  split <;> rfl

theorem handleSelectBox_anchors (s : AnchorBoardState) (det : Detection) :
    (handleSelectBox s det).anchors =
      jsArraySet s.anchors s.currentAnchorIndex
        { t := Option.bind s.anchors[s.currentAnchorIndex]? (fun a => a.t)
          box := some { x := det.x, y := det.y, w := det.w, h := det.h }
          skipped := false } := rfl

theorem handleSelectBox_currentAnchorIndex (s : AnchorBoardState) (det : Detection) :
    (handleSelectBox s det).currentAnchorIndex = s.currentAnchorIndex := rfl

theorem handleSelectBox_anchorTimestamps (s : AnchorBoardState) (det : Detection) :
    (handleSelectBox s det).anchorTimestamps = s.anchorTimestamps := rfl

theorem handleSkip_anchors (s : AnchorBoardState) :
    (handleSkip s).anchors =
      jsArraySet s.anchors s.currentAnchorIndex
        { t := Option.bind s.anchors[s.currentAnchorIndex]? (fun a => a.t)
          box := none, skipped := true } := by
  simp only [handleSkip]
  split
  · rw [goToAnchor_anchors]
  · rfl

theorem handleSkip_anchorTimestamps (s : AnchorBoardState) :
    (handleSkip s).anchorTimestamps = s.anchorTimestamps := by
  simp only [handleSkip]
  split
  · rw [goToAnchor_anchorTimestamps]
  · rfl

theorem handleSkip_currentAnchorIndex (s : AnchorBoardState) :
    (handleSkip s).currentAnchorIndex =
      if s.currentAnchorIndex < s.anchorTimestamps.length - 1 then
        s.currentAnchorIndex + 1
      else s.currentAnchorIndex := by
  simp only [handleSkip]
  by_cases hc : s.currentAnchorIndex < s.anchorTimestamps.length - 1
  · rw [if_pos hc, if_pos hc]
    have h0 : (0 : Int) ≤ (s.currentAnchorIndex : Int) + 1 := by omega
    have h1 : (s.currentAnchorIndex : Int) + 1 < (s.anchorTimestamps.length : Int) := by omega
    unfold goToAnchor
    rw [if_pos ⟨h0, h1⟩]
    simp
  · rw [if_neg hc, if_neg hc]

theorem requiredCount_eq_ceil (n : Nat) :
    requiredCount n = Nat.ceil ((n : Rat) * (65 / 100)) := by
  have key : ∀ m : Nat, requiredCount n ≤ m ↔ Nat.ceil ((n : Rat) * (65 / 100)) ≤ m := by
    intro m
    rw [Nat.ceil_le]
    unfold requiredCount REQUIRED_PERCENT
    have hq : (n : Rat) * (65 / 100) = (n * 65 : Nat) / 100 := by
      push_cast
      ring
    rw [hq]
    rw [div_le_iff₀ (by norm_num : (0 : Rat) < 100)]
    constructor
    · intro h
      have h2 := (Nat.div_le_iff_le_mul_add_pred (show 0 < 100 by norm_num)).mp h
      have h3 : n * 65 ≤ m * 100 := by omega
      exact_mod_cast h3
    · intro h
      have h2 : n * 65 ≤ m * 100 := by exact_mod_cast h
      exact (Nat.div_le_iff_le_mul_add_pred (show 0 < 100 by norm_num)).mpr (by omega)
  exact le_antisymm ((key _).mpr le_rfl) ((key _).mp le_rfl)

theorem canAnalyze_iff (s : AnchorBoardState) (h : s.anchors.length = s.anchorTimestamps.length) :
    canAnalyze s = true ↔
      (requiredCount s.anchors.length ≤ answeredCount s.anchors ∧
        ∃ a ∈ s.anchors, a.box ≠ none) := by
  unfold canAnalyze hasEnoughAnswers hasAnySelection
  rw [← h]
  rw [Bool.and_eq_true]
  rw [List.any_eq_true]
  constructor
  · rintro ⟨h1, h2⟩
    refine ⟨by simpa using h2, ?_⟩
    obtain ⟨a, ha, hb⟩ := h1
    exact ⟨a, ha, by simpa using hb⟩
  · rintro ⟨h1, a, ha, hb⟩
    exact ⟨⟨a, ha, by simpa using hb⟩, by simpa using h1⟩

/-! ### The claims -/

/-- C1: for an anchor board of length N the submission gate `canAnalyze` is
true exactly when the number of answered anchors (box non-null or skipped)
is at least `ceil(N * 0.65)` and at least one anchor carries a box; for
N = 15 the required count is 10, nine answered anchors leave the gate
false, ten answered anchors with at least one box make it true, and ten
all-skip answers leave it false. -/
theorem canAnalyze_threshold_gate (s : AnchorBoardState)
    (h : s.anchors.length = s.anchorTimestamps.length) :
    (canAnalyze s = true ↔
      (Nat.ceil ((s.anchors.length : Rat) * (65 / 100)) ≤ answeredCount s.anchors ∧
        ∃ a ∈ s.anchors, a.box ≠ none))
    ∧ requiredCount 15 = 10
    ∧ (s.anchors.length = 15 → answeredCount s.anchors ≤ 9 → canAnalyze s = false)
    ∧ (s.anchors.length = 15 → answeredCount s.anchors = 10 →
        (∃ a ∈ s.anchors, a.box ≠ none) → canAnalyze s = true)
    ∧ ((∀ a ∈ s.anchors, a.box = none) → canAnalyze s = false) := by
  have hmain := canAnalyze_iff s h
  have hceil := requiredCount_eq_ceil s.anchors.length
  refine ⟨by rw [← hceil]; exact hmain, by decide, ?_, ?_, ?_⟩
  · intro h15 h9
    cases hcam : canAnalyze s with
    | false => rfl
    | true =>
        obtain ⟨hge, _⟩ := hmain.mp hcam
        rw [h15] at hge
        have : requiredCount 15 = 10 := by decide
        omega
  · intro h15 h10 hbox
    apply hmain.mpr
    refine ⟨?_, hbox⟩
    rw [h15, h10]
    decide
  · intro hall
    cases hcam : canAnalyze s with
    | false => rfl
    | true =>
        obtain ⟨_, a, ha, hb⟩ := hmain.mp hcam
        exact absurd (hall a ha) hb

/-- An example board of 15 anchors with one boxed and nine skipped answers,
to instantiate the submission-gate theorem. -/
def exampleBoard15 : AnchorBoardState :=
  { anchorTimestamps := [0, 1, 2, 3, 4, 5, 6, 7, 8, 9, 10, 11, 12, 13, 14]
    anchors :=
      [{ t := some 0, box := some { x := 10, y := 20, w := 30, h := 40 }, skipped := false },
       { t := some 1, box := none, skipped := true },
       { t := some 2, box := none, skipped := true },
       { t := some 3, box := none, skipped := true },
       { t := some 4, box := none, skipped := true },
       { t := some 5, box := none, skipped := true },
       { t := some 6, box := none, skipped := true },
       { t := some 7, box := none, skipped := true },
       { t := some 8, box := none, skipped := true },
       { t := some 9, box := none, skipped := true },
       { t := some 10, box := none, skipped := false },
       { t := some 11, box := none, skipped := false },
       { t := some 12, box := none, skipped := false },
       { t := some 13, box := none, skipped := false },
       { t := some 14, box := none, skipped := false }]
    currentAnchorIndex := 0
    loadingAnchors := false }

/-- Witness for C1: the example board has 15 anchors, 10 of them answered
with one box, and its gate is open. -/
theorem canAnalyze_threshold_gate_witness : canAnalyze exampleBoard15 = true := by
  have h := canAnalyze_threshold_gate exampleBoard15 (by decide)
  exact h.2.2.2.1 (by decide) (by decide) (by decide)

/-- C6: `goToAnchor` moves the current-position pointer exactly when the
index is in range and is a no-op (not an error) otherwise; `handleSkip`
auto-advances the pointer by one on every anchor but the last, and leaves
it unchanged on the last anchor. -/
theorem goToAnchor_handleSkip_navigation (s : AnchorBoardState) (index : Int) :
    ((0 ≤ index ∧ index < (s.anchorTimestamps.length : Int)) →
        goToAnchor s index = { s with currentAnchorIndex := index.toNat })
    ∧ (¬(0 ≤ index ∧ index < (s.anchorTimestamps.length : Int)) → goToAnchor s index = s)
    ∧ (s.currentAnchorIndex + 1 < s.anchorTimestamps.length →
        (handleSkip s).currentAnchorIndex = s.currentAnchorIndex + 1)
    ∧ (s.anchorTimestamps.length = s.currentAnchorIndex + 1 →
        (handleSkip s).currentAnchorIndex = s.currentAnchorIndex) := by
  refine ⟨?_, ?_, ?_, ?_⟩
  · intro hin
    unfold goToAnchor
    rw [if_pos hin]
  · intro hout
    unfold goToAnchor
    rw [if_neg hout]
  · intro hlt
    rw [handleSkip_currentAnchorIndex]
    rw [if_pos (by omega)]
  · intro hlast
    rw [handleSkip_currentAnchorIndex]
    rw [if_neg (by omega)]

/-- Witness for C6: on a two-anchor board, an in-range `goToAnchor` moves
the pointer, an out-of-range one does nothing, and skipping the first
anchor advances to the second. -/
theorem goToAnchor_handleSkip_navigation_witness :
    (goToAnchor (fetchAnchorsModel initialAnchorBoard (.ok (some [0, 5]))) 1).currentAnchorIndex = 1
    ∧ goToAnchor (fetchAnchorsModel initialAnchorBoard (.ok (some [0, 5]))) 2 =
        fetchAnchorsModel initialAnchorBoard (.ok (some [0, 5]))
    ∧ (handleSkip (fetchAnchorsModel initialAnchorBoard (.ok (some [0, 5])))).currentAnchorIndex = 1 := by
  have h1 := goToAnchor_handleSkip_navigation (fetchAnchorsModel initialAnchorBoard (.ok (some [0, 5]))) 1
  have h2 := goToAnchor_handleSkip_navigation (fetchAnchorsModel initialAnchorBoard (.ok (some [0, 5]))) 2
  refine ⟨?_, ?_, ?_⟩
  · rw [h1.1 (by constructor <;> decide)]
    rfl
  · exact h2.2.1 (by intro hc; exact absurd hc.2 (by decide))
  · exact h1.2.2.1 (by decide)

/-- C7: the trim setting is accepted locally exactly when `start < end` and
`end - start` is at least `MIN_CLIP_LENGTH = 3` seconds; `(0, 2.9)` is
rejected with a local error and no request, `(0, 3)` is accepted. -/
theorem isValidTrim_min_clip_length :
    (∀ s e : Rat, (∃ r, handleContinue s e = Except.ok r) ↔
        (s < e ∧ MIN_CLIP_LENGTH ≤ e - s))
    ∧ (∀ s e : Rat, s < e → MIN_CLIP_LENGTH ≤ e - s →
        handleContinue s e = Except.ok { trim_start := s, trim_end := e })
    ∧ handleContinue 0 (29 / 10) = Except.error "Trimmed clip must be at least 3 seconds"
    ∧ handleContinue 0 3 = Except.ok { trim_start := 0, trim_end := 3 }
    ∧ MIN_CLIP_LENGTH = 3 := by
  have hvalid : ∀ s e : Rat, isValidTrim s e = true ↔ (s < e ∧ MIN_CLIP_LENGTH ≤ e - s) := by
    intro s e
    unfold isValidTrim
    rw [Bool.and_eq_true]
    simp only [decide_eq_true_eq]
    exact ⟨fun x => ⟨x.2, x.1⟩, fun x => ⟨x.2, x.1⟩⟩
  refine ⟨?_, ?_, ?_, ?_, rfl⟩
  · intro s e
    unfold handleContinue
    by_cases hv : isValidTrim s e
    · rw [if_pos hv]
      constructor
      · intro _
        exact (hvalid s e).mp hv
      · intro _
        exact ⟨_, rfl⟩
    · rw [if_neg hv]
      constructor
      · rintro ⟨r, hr⟩
        exact Except.noConfusion hr
      · intro hc
        exact absurd ((hvalid s e).mpr hc) hv
  · intro s e h1 h2
    unfold handleContinue
    rw [if_pos ((hvalid s e).mpr ⟨h1, h2⟩)]
  · unfold handleContinue
    rw [if_neg]
    intro hc
    have := (hvalid 0 (29 / 10)).mp hc
    have h3 : ¬(MIN_CLIP_LENGTH ≤ (29 / 10 : Rat) - 0) := by
      unfold MIN_CLIP_LENGTH
      norm_num
    exact h3 this.2
  · unfold handleContinue
    rw [if_pos]
    apply (hvalid 0 3).mpr
    constructor
    · norm_num
    · unfold MIN_CLIP_LENGTH
      norm_num

/-- Witness for C7: a four-second clip is accepted. -/
theorem isValidTrim_min_clip_length_witness :
    handleContinue 0 4 = Except.ok { trim_start := 0, trim_end := 4 } := by
  apply isValidTrim_min_clip_length.2.1 0 4
  · norm_num
  · unfold MIN_CLIP_LENGTH
    norm_num

/-- C9 (amended): a failed anchor-list fetch leaves the board empty — no
partial list is installed — and ends the loading state, but surfaces no
error state: the component has no error field for this fetch, the failure
is only logged, and the resulting state is identical to a successful fetch
of an empty anchor list, rendering as the ordinary board. -/
theorem fetchAnchors_failure_silent (res : AnchorsFetchOutcome)
    (h : res = .httpError ∨ res = .networkError) :
    (fetchAnchorsModel initialAnchorBoard res).anchors = []
    ∧ (fetchAnchorsModel initialAnchorBoard res).anchorTimestamps = []
    ∧ (fetchAnchorsModel initialAnchorBoard res).loadingAnchors = false
    ∧ fetchAnchorsModel initialAnchorBoard res = fetchAnchorsModel initialAnchorBoard (.ok (some []))
    ∧ renderAnchorScreen (fetchAnchorsModel initialAnchorBoard res) = .boardView := by
  rcases h with rfl | rfl <;> exact ⟨rfl, rfl, rfl, rfl, rfl⟩

/-- Witness for C9: the http-error outcome instantiates the amended claim. -/
theorem fetchAnchors_failure_silent_witness :
    fetchAnchorsModel initialAnchorBoard .httpError =
      fetchAnchorsModel initialAnchorBoard (.ok (some [])) :=
  (fetchAnchors_failure_silent .httpError (Or.inl rfl)).2.2.2.1

/-- Counterexample for C9: the claim says a failed fetch "surfaces an error
state to the user", but the component state after a network error is
indistinguishable from the state after a successful fetch of an empty
anchor list, and it renders as the ordinary board view — there is no error
state at all. -/
theorem fetchAnchors_failure_no_error_state :
    fetchAnchorsModel initialAnchorBoard .networkError =
      fetchAnchorsModel initialAnchorBoard (.ok (some []))
    ∧ renderAnchorScreen (fetchAnchorsModel initialAnchorBoard .networkError) =
        renderAnchorScreen (fetchAnchorsModel initialAnchorBoard (.ok (some []))) :=
  ⟨rfl, rfl⟩

/-- C10 (amended): whenever the current-position index is within the anchor
list — every nonempty board, since navigation keeps the index in range —
`handleSelectBox` and `handleSkip` leave the record at every other index
unchanged, preserve the list length and every anchor's timestamp, and
`goToAnchor` changes neither the anchors nor the timestamps.  (On an empty
board the JavaScript element assignment instead appends a fresh record; see
the counterexample.) -/
theorem select_skip_frame_effect (s : AnchorBoardState) (det : Detection) (j : Nat) (index : Int)
    (h : s.currentAnchorIndex < s.anchors.length) :
    (j ≠ s.currentAnchorIndex →
        (handleSelectBox s det).anchors[j]? = s.anchors[j]? ∧
        (handleSkip s).anchors[j]? = s.anchors[j]?)
    ∧ (handleSelectBox s det).anchors.length = s.anchors.length
    ∧ (handleSkip s).anchors.length = s.anchors.length
    ∧ (handleSelectBox s det).anchors.map Anchor.t = s.anchors.map Anchor.t
    ∧ (handleSkip s).anchors.map Anchor.t = s.anchors.map Anchor.t
    ∧ (handleSelectBox s det).anchorTimestamps = s.anchorTimestamps
    ∧ (handleSkip s).anchorTimestamps = s.anchorTimestamps
    ∧ (goToAnchor s index).anchors = s.anchors
    ∧ (goToAnchor s index).anchorTimestamps = s.anchorTimestamps := by
  obtain ⟨a, ha⟩ : ∃ a, s.anchors[s.currentAnchorIndex]? = some a := by
    rw [List.getElem?_eq_getElem h]
    exact ⟨_, rfl⟩
  refine ⟨?_, ?_, ?_, ?_, ?_, handleSelectBox_anchorTimestamps s det,
    handleSkip_anchorTimestamps s, goToAnchor_anchors s index,
    goToAnchor_anchorTimestamps s index⟩
  · intro hj
    constructor
    · rw [handleSelectBox_anchors]
      exact getElem?_jsArraySet_ne hj (by omega)
    · rw [handleSkip_anchors]
      exact getElem?_jsArraySet_ne hj (by omega)
  · rw [handleSelectBox_anchors]
    exact length_jsArraySet h
  · rw [handleSkip_anchors]
    exact length_jsArraySet h
  · rw [handleSelectBox_anchors]
    exact map_jsArraySet Anchor.t ha (by rw [ha]; rfl)
  · rw [handleSkip_anchors]
    exact map_jsArraySet Anchor.t ha (by rw [ha]; rfl)

/-- Witness for C10: on a two-anchor board with the pointer on anchor 0,
skipping leaves the record at index 1 unchanged and preserves length and
timestamps. -/
theorem select_skip_frame_effect_witness :
    (handleSkip (fetchAnchorsModel initialAnchorBoard (.ok (some [0, 5])))).anchors[1]? =
      (fetchAnchorsModel initialAnchorBoard (.ok (some [0, 5]))).anchors[1]?
    ∧ (handleSkip (fetchAnchorsModel initialAnchorBoard (.ok (some [0, 5])))).anchors.length =
        (fetchAnchorsModel initialAnchorBoard (.ok (some [0, 5]))).anchors.length := by
  have h := select_skip_frame_effect (fetchAnchorsModel initialAnchorBoard (.ok (some [0, 5])))
    { id := 0, score := none, x := 1, y := 2, w := 3, h := 4 } 1 0 (by decide)
  exact ⟨(h.1 (by decide)).2, h.2.2.1⟩

/-- Counterexample for C10: the claim as stated covers every anchor list,
but on the empty board (a real state: the backend can return an empty
anchor list, and the skip button is live) `handleSkip` performs the
JavaScript element assignment `updated[0] = ...` on an empty array, growing
the anchor list from length 0 to length 1 — an operation the claim says
never modifies the list length. -/
theorem handleSkip_empty_board_grows :
    (fetchAnchorsModel initialAnchorBoard (.ok (some []))).anchors.length = 0
    ∧ (handleSkip (fetchAnchorsModel initialAnchorBoard (.ok (some [])))).anchors.length = 1 :=
  ⟨rfl, rfl⟩

theorem reach_mutex (s : AnchorBoardState) (hr : BoardReach s) :
    ∀ a ∈ s.anchors, ¬(a.box.isSome = true ∧ a.skipped = true) := by
  induction hr with
  | init res =>
      intro a ha
      cases res with
      | ok f =>
          simp only [fetchAnchorsModel, List.mem_map] at ha
          obtain ⟨t, _, rfl⟩ := ha
          simp
      | httpError => simp [fetchAnchorsModel, initialAnchorBoard] at ha
      | networkError => simp [fetchAnchorsModel, initialAnchorBoard] at ha
  | select det hr ih =>
      intro a ha
      rw [handleSelectBox_anchors] at ha
      rcases mem_jsArraySet ha with h | rfl
      · exact ih a h
      · simp
  | skip hr ih =>
      intro a ha
      rw [handleSkip_anchors] at ha
      rcases mem_jsArraySet ha with h | rfl
      · exact ih a h
      · simp
  | goto index hr ih =>
      intro a ha
      rw [goToAnchor_anchors] at ha
      exact ih a ha

/-- C2: on every reachable board, box and skipped are mutually exclusive;
`handleSelectBox` stores the detection's geometry and clears the skipped
flag, `handleSkip` clears the box and sets the flag, select-then-skip on
the same anchor leaves exactly `skipped = true, box = null`, and an anchor
counts as answered (box non-null or skipped) exactly when box non-null XOR
skipped. -/
theorem select_skip_mutual_exclusion (s : AnchorBoardState) (hr : BoardReach s) :
    (∀ a ∈ s.anchors, ¬(a.box.isSome = true ∧ a.skipped = true))
    ∧ (∀ (det : Detection) (a : Anchor), s.anchors[s.currentAnchorIndex]? = some a →
        (handleSelectBox s det).anchors[s.currentAnchorIndex]? =
          some { t := a.t
                 box := some { x := det.x, y := det.y, w := det.w, h := det.h }
                 skipped := false }
        ∧ (handleSkip s).anchors[s.currentAnchorIndex]? =
            some { t := a.t, box := none, skipped := true }
        ∧ (handleSkip (handleSelectBox s det)).anchors[s.currentAnchorIndex]? =
            some { t := a.t, box := none, skipped := true })
    ∧ (∀ a ∈ s.anchors, (a.box.isSome || a.skipped) = Bool.xor a.box.isSome a.skipped) := by
  have hmutex := reach_mutex s hr
  refine ⟨hmutex, ?_, ?_⟩
  · intro det a ha
    have hi : s.currentAnchorIndex < s.anchors.length := by
      by_contra hc
      rw [List.getElem?_eq_none (show s.anchors.length ≤ s.currentAnchorIndex by omega)] at ha
      exact Option.noConfusion ha
    have hsel : (handleSelectBox s det).anchors[s.currentAnchorIndex]? =
        some { t := a.t
               box := some { x := det.x, y := det.y, w := det.w, h := det.h }
               skipped := false } := by
      rw [handleSelectBox_anchors, ha]
      exact getElem?_jsArraySet_self hi
    refine ⟨hsel, ?_, ?_⟩
    · rw [handleSkip_anchors, ha]
      exact getElem?_jsArraySet_self hi
    · have hlen : (handleSelectBox s det).anchors.length = s.anchors.length := by
        rw [handleSelectBox_anchors]
        exact length_jsArraySet hi
      rw [handleSkip_anchors, handleSelectBox_currentAnchorIndex, hsel]
      exact getElem?_jsArraySet_self (by omega)
  · intro a ha
    have h := hmutex a ha
    cases hb : a.box.isSome <;> cases hsk : a.skipped <;> simp_all

/-- A sample detection used by the witnesses. -/
def exampleDetection : Detection :=
  { id := 0, score := none, x := 1, y := 2, w := 3, h := 4 }

/-- Witness for C2: on the freshly fetched two-anchor board, selecting a
detection stores its geometry with the skipped flag clear. -/
theorem select_skip_mutual_exclusion_witness :
    (handleSelectBox (fetchAnchorsModel initialAnchorBoard (.ok (some [0, 5])))
        exampleDetection).anchors[0]? =
      some { t := some 0, box := some { x := 1, y := 2, w := 3, h := 4 }, skipped := false } := by
  have h := select_skip_mutual_exclusion (fetchAnchorsModel initialAnchorBoard (.ok (some [0, 5])))
    (BoardReach.init (.ok (some [0, 5])))
  exact (h.2.1 exampleDetection { t := some 0, box := none, skipped := false } rfl).1

theorem foldl_bumpIssues (l : List Pointer) (m : String → Nat) (k : String) :
    l.foldl bumpIssues m k =
      m k + (if k = "" then 0 else l.countP (fun p => issueKey p == k)) := by
  induction l generalizing m with
  | nil => simp
  | cons p tl ih =>
      rw [List.foldl_cons, ih, List.countP_cons]
      unfold bumpIssues
      by_cases hk : issueKey p = ""
      · rw [if_pos hk]
        by_cases hk2 : k = ""
        · rw [if_pos hk2, if_pos hk2]
        · rw [if_neg hk2, if_neg hk2]
          have : (issueKey p == k) = false := by
            simp [hk]
            intro hc
            exact absurd hc.symm hk2
          rw [this]
          simp
      · rw [if_neg hk]
        by_cases hk2 : k = ""
        · rw [if_pos hk2, if_pos hk2]
          have : ¬(k = issueKey p) := by
            rw [hk2]
            intro hc
            exact hk hc.symm
          rw [if_neg this]
        · rw [if_neg hk2, if_neg hk2]
          by_cases hke : k = issueKey p
          · rw [if_pos hke]
            have : (issueKey p == k) = true := by simp [hke]
            rw [this]
            simp
            omega
          · rw [if_neg hke]
            have : (issueKey p == k) = false := by
              simp
              intro hc
              exact hke hc.symm
            rw [this]
            simp

/-- The match-context fold example of the specification: two shot-type
events, one level-change event, pointers "Get Lower" and "Keep Hands Up". -/
def exampleResult : AnalysisResult :=
  { pointers := some [{ title := some "Get Lower" }, { title := some "Keep Hands Up" }]
    events := some [{ type := some "SHOT_ATTEMPT" }, { type := some "SHOT_ATTEMPT" },
                    { type := some "LEVEL_CHANGE" }] }

/-- C3: appending a result pushes it onto the analyses list and folds it
into the match context: the three totals each grow by the number of events
whose type case-insensitively contains the respective keywords, every
pointer bumps `recurringIssues` at its lowercased title by one, the clip
counter grows by exactly one, and the rolling summary is regenerated; on
the concrete example (two shot events, one level change, pointers
"Get Lower" and "Keep Hands Up" into the empty session) the totals become
2 and 1 and both issue counters become 1. -/
theorem appendResult_matchContext_fold (s : Session) (r : AnalysisResult) :
    (appendResult s r).analyses = s.analyses ++ [r]
    ∧ (appendResult s r).matchContext.totalShotAttempts =
        s.matchContext.totalShotAttempts + (r.events.getD []).countP isShotEvent
    ∧ (appendResult s r).matchContext.totalLevelChanges =
        s.matchContext.totalLevelChanges + (r.events.getD []).countP isLevelEvent
    ∧ (appendResult s r).matchContext.totalSprawls =
        s.matchContext.totalSprawls + (r.events.getD []).countP isSprawlEvent
    ∧ (∀ k, (appendResult s r).matchContext.recurringIssues k =
        s.matchContext.recurringIssues k +
          (if k = "" then 0 else (r.pointers.getD []).countP (fun p => issueKey p == k)))
    ∧ (appendResult s r).matchContext.lastClipIndex = s.matchContext.lastClipIndex + 1
    ∧ (appendResult s r).matchContext.clipsSummary =
        clipsSummaryText (s.matchContext.lastClipIndex + 1)
    ∧ (appendResult initialSession exampleResult).matchContext.totalShotAttempts = 2
    ∧ (appendResult initialSession exampleResult).matchContext.totalLevelChanges = 1
    ∧ (appendResult initialSession exampleResult).matchContext.totalSprawls = 0
    ∧ (appendResult initialSession exampleResult).matchContext.recurringIssues "get lower" = 1
    ∧ (appendResult initialSession exampleResult).matchContext.recurringIssues "keep hands up" = 1
    ∧ (appendResult initialSession exampleResult).matchContext.clipsSummary =
        "Analyzed 1 clip in this session." := by
  refine ⟨rfl, ?_, ?_, ?_, ?_, rfl, rfl, by decide, by decide, by decide, by decide, by decide,
    by decide⟩
  · simp [appendResult, updateMatchContext, List.countP_eq_length_filter]
  · simp [appendResult, updateMatchContext, List.countP_eq_length_filter]
  · simp [appendResult, updateMatchContext, List.countP_eq_length_filter]
  · intro k
    exact foldl_bumpIssues (r.pointers.getD []) s.matchContext.recurringIssues k

/-- The anchors of a sample submittable board: one boxed, one skipped. -/
def exampleAnchors : List Anchor :=
  [{ t := some 0, box := some { x := 10, y := 20, w := 30, h := 40 }, skipped := false },
   { t := some 5, box := none, skipped := true }]

/-- Counterexample for C4: even on a submission made while the user chose
continuation mode and the session holds a prior analysis, the body posted
to the anchor-based analysis endpoint — which is a function of the anchors
alone — carries no `skill_level` member and no `prior_context` member, and
its `continuation` member is the constant `false`; the claim says the
request contains the skill level and, under those conditions, a
PriorContext. -/
theorem anchor_request_missing_fields :
    objGet (anchorAnalyzeRequest exampleAnchors) "skill_level" = none
    ∧ objGet (anchorAnalyzeRequest exampleAnchors) "prior_context" = none
    ∧ objGet (anchorAnalyzeRequest exampleAnchors) "continuation" = some (JsValue.bool false) :=
  ⟨rfl, rfl, rfl⟩

/-- C4 (amended): the request object sent to the anchor-based analysis
endpoint contains the anchors array (each entry carrying `t`, `box` or
null, and `skipped`) and a continuation flag hard-coded to `false`; it
contains neither the skill level nor any PriorContext. -/
theorem anchor_request_shape (as : List Anchor) :
    objGet (anchorAnalyzeRequest as) "anchors" = some (.arr (as.map anchorToJs))
    ∧ objGet (anchorAnalyzeRequest as) "continuation" = some (.bool false)
    ∧ objGet (anchorAnalyzeRequest as) "skill_level" = none
    ∧ objGet (anchorAnalyzeRequest as) "prior_context" = none
    ∧ (∀ a : Anchor,
        objGet (anchorToJs a) "skipped" = some (.bool a.skipped)
        ∧ objGet (anchorToJs a) "box" =
            some (match a.box with
                  | some b => boxToJs b
                  | none => JsValue.null)
        ∧ (∀ t, a.t = some t → objGet (anchorToJs a) "t" = some (.num t))) := by
  refine ⟨rfl, rfl, rfl, rfl, ?_⟩
  intro a
  rcases a with ⟨t?, box?, sk⟩
  refine ⟨?_, ?_, ?_⟩
  · cases t? <;> rfl
  · cases t? <;> rfl
  · intro t ht
    cases t? with
    | none => exact Option.noConfusion ht
    | some t0 =>
        cases ht
        rfl

/-- Witness for C4: a skipped anchor with timestamp 0 serializes its `t`
member. -/
theorem anchor_request_shape_witness :
    objGet (anchorToJs { t := some 0, box := none, skipped := true }) "t" =
      some (JsValue.num 0) :=
  ((anchor_request_shape []).2.2.2.2 { t := some 0, box := none, skipped := true }).2.2 0 rfl

/-- C5: the session initializer discards an absent or unparseable stored
string and returns the default session, and the upload-data and
last-target initializers likewise fall back to null — but startup is
not safe on every input string: a stored session of `"null"` (valid JSON)
is returned as-is by `getInitialSession`, and the `appState` initializer
then throws a `TypeError` reading `.analyses.length`, crashing startup;
likewise for a stored object without an `analyses` member. -/
theorem session_init_startup_crash :
    getInitialSession none = defaultSessionJs
    ∧ getInitialSession (some "totally not json") = defaultSessionJs
    ∧ appStateInit none = Except.ok false
    ∧ appStateInit (some "totally not json") = Except.ok false
    ∧ uploadDataInit none = none
    ∧ uploadDataInit (some "totally not json") = none
    ∧ lastTargetInit (some "totally not json") = none
    ∧ jsonParse "null" = some JsValue.null
    ∧ getInitialSession (some "null") = JsValue.null
    ∧ appStateInit (some "null") = Except.error "TypeError"
    ∧ getInitialSession (some "\x7b\x7d") = JsValue.obj []
    ∧ appStateInit (some "\x7b\x7d") = Except.error "TypeError" :=
  ⟨rfl, rfl, rfl, rfl, rfl, rfl, rfl, rfl, rfl, rfl, rfl, rfl⟩

/-- C8: at every reachable retry invocation — the retry button only exists
on the analyzing screen, where upload metadata and a stored contract are
always present — `handleRetry` resubmits the stored contract (anchor-based
or legacy) exactly as stored; and whenever no contract is stored it sends
the application back to the anchor board instead of submitting. -/
theorem handleRetry_resubmits_stored_contract (m : AppModel) (hr : ReachableApp m)
    (hs : m.appState = .analyzing) :
    (∀ as, m.lastTarget = some (.anchors as) →
        handleRetryAction m.lastTarget m.uploadData = .resubmitAnchors as)
    ∧ (∀ b t, m.lastTarget = some (.legacy b t) →
        handleRetryAction m.lastTarget m.uploadData = .resubmitLegacy b t)
    ∧ (m.lastTarget = none →
        handleRetryAction m.lastTarget m.uploadData = .backToAnchorSelect) := by
  obtain ⟨hu, hl⟩ := analyzing_has_contract m hr hs
  obtain ⟨u, hu2⟩ := Option.isSome_iff_exists.mp hu
  refine ⟨?_, ?_, ?_⟩
  · intro as hlt
    rw [hlt, hu2]
    rfl
  · intro b t hlt
    rw [hlt, hu2]
    rfl
  · intro hlt
    rw [hlt, hu2]
    rfl

/-- Sample upload metadata for the retry witness. -/
def exampleUpload : UploadData := { job_id := "job-1", duration_seconds := 30 }

/-- Witness for C8: starting from a fresh session, uploading and submitting
an anchor contract reaches the analyzing screen, where retry resubmits
exactly the stored anchors. -/
theorem handleRetry_resubmits_stored_contract_witness :
    handleRetryAction (some (LastTarget.anchors exampleAnchors)) (some exampleUpload) =
      RetryAction.resubmitAnchors exampleAnchors := by
  have h0 : ReachableApp
      { appState := .upload, uploadData := none, lastTarget := none, session := initialSession } :=
    ReachableApp.init initialSession none none
  have h1 := ReachableApp.uploadSuccess exampleUpload h0 rfl
  have h2 := ReachableApp.submitAnchors exampleAnchors exampleUpload h1 rfl rfl
  have h3 := handleRetry_resubmits_stored_contract _ h2 rfl
  exact h3.1 exampleAnchors rfl

end WrestleAI
